import Mathlib

/-!
Verification of the rescue-dog dashboard core services
(ranking_service.py, query_service.py, result_service.py).

Records are modelled as finite-support maps from field names to values:
`Record := String → Option Value`, where `none` means the key is absent.
Python values occurring in these services are modelled by `Value`:
`vnone` is Python `None`, `vint`/`vfloat` are numbers (floats as exact
rationals), `vstr` is text, and `vbreakdown` models the one nested
mapping the code ever stores in a record, the score-breakdown dict with
its three integer entries.
-/

/-- Python values stored in record fields, as used by the services. -/
inductive Value where
  | vnone
  | vint (n : Int)
  | vfloat (q : Rat)
  | vstr (s : String)
  | vbreakdown (breed_match age_match sex_match : Int)
deriving DecidableEq

/-- A record: a map from field names to values; `none` = key absent. -/
abbrev Record := String → Option Value

/-- Python `record.get(k)` with default `None`. -/
def rget (r : Record) (k : String) : Value :=
  (r k).getD Value.vnone

/-- Python `record[k] = v`. -/
def rset (r : Record) (k : String) (v : Value) : Record :=
  fun q => if q = k then some v else r q

/-- Python `record.pop(k, None)`: remove the key. -/
def rdel (r : Record) (k : String) : Record :=
  fun q => if q = k then none else r q

/-- Python `record.setdefault(k, v)`: insert `v` only when the key is absent. -/
def rsetdefault (r : Record) (k : String) (v : Value) : Record :=
  match r k with
  | some _ => r
  | none => rset r k v

/-- Python truthiness of a `Value` (`None`, `0`, `0.0`, `""` and the empty
dict are falsy; the breakdown dict always has three entries, hence truthy). -/
def truthy : Value → Bool
  | .vnone => false
  | .vint n => n != 0
  | .vfloat q => q != 0
  | .vstr s => s != ""
  | .vbreakdown _ _ _ => true

/-- Python `v == t` for a string `t`: only equal strings compare equal;
values of other types compare unequal (never raise). -/
def valEqStr : Value → String → Bool
  | .vstr s, t => s == t
  | _, _ => false

/-- Python `v in bs` for a collection of strings `bs`: only a string can
be a member, by exact case-sensitive comparison. -/
def valMem : Value → List String → Bool
  | .vstr s, bs => s ∈ bs
  | _, _ => false

/-- Numeric view of a value: `isinstance(v, (int, float))` yields the
number, anything else yields `none`. -/
def asNum : Value → Option Rat
  | .vint n => some (n : Rat)
  | .vfloat q => some q
  | _ => none

/-- Structure `MatchCriteria` (ranking_service.py): immutable scoring criteria.
The Python `set[str]` of breeds is modelled as the list of its elements
in the order the source writes them. -/
structure MatchCriteria where
  preferred_breeds : Option (List String) := none
  min_weeks : Option Int := none
  max_weeks : Option Int := none
  preferred_sex : Option String := none
deriving DecidableEq

/-- Structure `BreedScore` (ranking_service.py): scoring breakdown for one record. -/
structure BreedScore where
  breed_match : Int
  age_match : Int
  sex_match : Int
  total_score : Int
deriving DecidableEq

def BREED_WEIGHT : Int := 50

def AGE_WEIGHT : Int := 30

def SEX_WEIGHT : Int := 20

/-- Method `RankingAlgorithm._score_breed`: 50 points when the record's breed is
truthy and a member of the preferred breeds, else 0. -/
def score_breed (record : Record) (criteria : MatchCriteria) : Int :=
  match criteria.preferred_breeds with
  | none => 0
  | some breeds =>
    let breed := rget record "breed"
    if truthy breed && valMem breed breeds then BREED_WEIGHT else 0

/-- Method `RankingAlgorithm._score_age`: 30 points when both bounds are present,
the age field holds an `int`/`float`, and `min ≤ age ≤ max` (inclusive). -/
def score_age (record : Record) (criteria : MatchCriteria) : Int :=
  match criteria.min_weeks, criteria.max_weeks with
  | some lo, some hi =>
    match asNum (rget record "age_upon_outcome_in_weeks") with
    | some age => if (lo : Rat) ≤ age ∧ age ≤ (hi : Rat) then AGE_WEIGHT else 0
    | none => 0
  | _, _ => 0

/-- Method `RankingAlgorithm._score_sex`: 20 points when the record's sex field is
truthy and equals the preferred sex exactly, else 0. -/
def score_sex (record : Record) (criteria : MatchCriteria) : Int :=
  match criteria.preferred_sex with
  | none => 0
  | some ps =>
    let sex := rget record "sex_upon_outcome"
    if truthy sex && valEqStr sex ps then SEX_WEIGHT else 0

/-- Method `RankingAlgorithm.score_dog`: component scores and their total. -/
def score_dog (record : Record) (criteria : MatchCriteria) : BreedScore :=
  let breed_score := score_breed record criteria
  let age_score := score_age record criteria
  let sex_score := score_sex record criteria
  { breed_match := breed_score
    age_match := age_score
    sex_match := sex_score
    total_score := breed_score + age_score + sex_score }

/-- Function `criteria_for_filter` (ranking_service.py): criteria for each rescue
filter; every other string yields the empty criteria. -/
def criteria_for_filter (filter_type : String) : MatchCriteria :=
  if filter_type = "water" then
    { preferred_breeds := some ["Labrador Retriever Mix", "Chesapeake Bay Retriever", "Newfoundland"]
      min_weeks := some 26
      max_weeks := some 156
      preferred_sex := some "Intact Female" }
  else if filter_type = "mountain" then
    { preferred_breeds := some ["German Shepherd", "Alaskan Malamute", "Old English Sheepdog", "Siberian Husky", "Rottweiler"]
      min_weeks := some 26
      max_weeks := some 156
      preferred_sex := some "Intact Male" }
  else if filter_type = "disaster" then
    { preferred_breeds := some ["Doberman Pinscher", "German Shepherd", "Golden Retriever", "Bloodhound", "Rottweiler"]
      min_weeks := some 20
      max_weeks := some 300
      preferred_sex := some "Intact Male" }
  else
    {}

/-- The scored copy built inside `rank_results`: `dict(record)` with
`match_score` and `score_breakdown` set, paired with the sort key
`score.total_score`. -/
def attachScore (criteria : MatchCriteria) (record : Record) : Int × Record :=
  let score := score_dog record criteria
  let scored := rset record "match_score" (.vint score.total_score)
  let scored := rset scored "score_breakdown"
    (.vbreakdown score.breed_match score.age_match score.sex_match)
  (score.total_score, scored)

/-- Insert a keyed element into a list sorted by key descending, after
every element of strictly larger key and before every element of equal or
smaller key (so earlier-input elements stay ahead of equal-key later ones). -/
def insertDesc (x : Int × Record) : List (Int × Record) → List (Int × Record)
  | [] => [x]
  | y :: ys => if x.1 < y.1 then y :: insertDesc x ys else x :: y :: ys

/-- Stable sort by key, descending. `list.sort(key=lambda x: x[0],
reverse=True)` is a stable sort, and a stable sort by key has a unique
result, so stable insertion sort models it exactly. -/
def sortDesc : List (Int × Record) → List (Int × Record)
  | [] => []
  | x :: xs => insertDesc x (sortDesc xs)

/-- Function `rank_results` (ranking_service.py): score every record, sort the
(total, scored-record) pairs by total descending keeping ties in input
order, and return the records. -/
def rank_results (rows : List Record) (criteria : MatchCriteria) : List Record :=
  (sortDesc (rows.map (attachScore criteria))).map Prod.snd

/-- The `match_score` field of a scored record, as an integer. -/
def msOf (r : Record) : Int :=
  match r "match_score" with
  | some (.vint n) => n
  | _ => 0

/-- Constant `ALLOWED_FILTERS` (query_service.py), as the list of its elements. -/
def ALLOWED_FILTERS : List String := ["all", "water", "mountain", "disaster"]

/-- Function `validate_filter_type` (query_service.py): raise `ValueError` unless
the filter is in the whitelist; otherwise return it unchanged. -/
def validate_filter_type (filter_type : String) : Except String String :=
  if filter_type ∈ ALLOWED_FILTERS then Except.ok filter_type
  else Except.error "Invalid filter type."

/-- One conjunct of a structured store query, mirroring the operators
used by `build_rescue_query`: `breed $in`, `sex_upon_outcome` equality,
and an inclusive `$gte`/`$lte` range on the age field. -/
inductive QueryCond where
  | breedIn (breeds : List String)
  | sexEq (sex : String)
  | ageRange (lo hi : Int)
deriving DecidableEq

/-- Function `build_rescue_query` (query_service.py): validate, then return the
`$and` conjunction for the rescue type; `[]` models the empty query `{}`. -/
def build_rescue_query (filter_type : String) : Except String (List QueryCond) :=
  match validate_filter_type filter_type with
  | .error e => .error e
  | .ok _ =>
    if filter_type = "water" then
      .ok [.breedIn ["Labrador Retriever Mix", "Chesapeake Bay Retriever", "Newfoundland"],
           .sexEq "Intact Female", .ageRange 26 156]
    else if filter_type = "mountain" then
      .ok [.breedIn ["German Shepherd", "Alaskan Malamute", "Old English Sheepdog", "Siberian Husky", "Rottweiler"],
           .sexEq "Intact Male", .ageRange 26 156]
    else if filter_type = "disaster" then
      .ok [.breedIn ["Doberman Pinscher", "German Shepherd", "Golden Retriever", "Bloodhound", "Rottweiler"],
           .sexEq "Intact Male", .ageRange 20 300]
    else
      .ok []

/-- Inclusive numeric range test used by the store semantics: a value
satisfies `$gte lo, $lte hi` exactly when it is numeric and in range. -/
def ageWithin (lo hi : Int) (v : Value) : Bool :=
  match asNum v with
  | some q => decide ((lo : Rat) ≤ q ∧ q ≤ (hi : Rat))
  | none => false

/-- Store semantics of one query conjunct over a record. -/
def condMatches (r : Record) : QueryCond → Bool
  | .breedIn breeds => valMem (rget r "breed") breeds
  | .sexEq s => valEqStr (rget r "sex_upon_outcome") s
  | .ageRange lo hi => ageWithin lo hi (rget r "age_upon_outcome_in_weeks")

/-- Store semantics of a query: conjunction of its conjuncts; the empty
query matches every record. -/
def queryMatches (q : List QueryCond) (r : Record) : Bool :=
  q.all (condMatches r)

/-- The predicate described by the spec for a `MatchCriteria` (§4.1):
the conjunction of breed ∈ set, sex = value and age ∈ [min, max]
inclusive, one conjunct per present criteria field; all fields absent
means no constraint. Stated from the spec's words for comparison with
`build_rescue_query`. -/
def specPredicate (c : MatchCriteria) (r : Record) : Bool :=
  (match c.preferred_breeds with
   | none => true
   | some bs => valMem (rget r "breed") bs)
  && (match c.preferred_sex with
      | none => true
      | some s => valEqStr (rget r "sex_upon_outcome") s)
  && (match c.min_weeks, c.max_weeks with
      | some lo, some hi => ageWithin lo hi (rget r "age_upon_outcome_in_weeks")
      | _, _ => true)

/-- Digit-string value: `none` unless the characters are one or more
decimal digits. -/
def digitsVal (cs : List Char) : Option Nat :=
  if cs.isEmpty || !cs.all Char.isDigit then none
  else some (cs.foldl (fun a c => a * 10 + (c.toNat - 48)) 0)

/-- Split a character list at the occurrences of `.`. -/
def splitDot : List Char → List (List Char)
  | [] => [[]]
  | c :: cs =>
    if c = '.' then [] :: splitDot cs
    else
      match splitDot cs with
      | [] => [[c]]
      | p :: ps => (c :: p) :: ps

/-- Model of the fragment of Python's built-in `float(str)` conversion the
sanitizer relies on: optional sign, then `digits`, `digits.digits`,
`digits.` or `.digits`; the result is the exact rational value.
Whitespace, exponents, infinities and NaN are outside the model. -/
def pyFloatOfString (s : String) : Option Rat :=
  let signBody : Int × List Char :=
    match s.data with
    | '-' :: rest => (-1, rest)
    | '+' :: rest => (1, rest)
    | cs => (1, cs)
  match splitDot signBody.2 with
  | [ds] => (digitsVal ds).map fun n => ((signBody.1 * n : Int) : Rat)
  | [ipart, fpart] =>
    if ipart.isEmpty && fpart.isEmpty then none
    else if !ipart.all Char.isDigit || !fpart.all Char.isDigit then none
    else
      let ival : Nat := ipart.foldl (fun a c => a * 10 + (c.toNat - 48)) 0
      let fval : Nat := fpart.foldl (fun a c => a * 10 + (c.toNat - 48)) 0
      some ((signBody.1 : Rat) * ((ival : Rat) + (fval : Rat) / (10 : Rat) ^ fpart.length))
  | _ => none

/-- Python `float(v)` on a record value: numbers convert exactly, strings
convert when they denote a number, everything else raises
(`TypeError`/`ValueError`), modelled as `none`. -/
def pyFloat : Value → Option Rat
  | .vint n => some (n : Rat)
  | .vfloat q => some q
  | .vstr s => pyFloatOfString s
  | .vnone => none
  | .vbreakdown _ _ _ => none

/-- The age coercion of `sanitize_record`: `None` stays `None`, a
convertible value becomes its float, a non-convertible value becomes
`None` (the caught-exception branch). -/
def coerceAge : Value → Value
  | .vnone => .vnone
  | v =>
    match pyFloat v with
    | some q => .vfloat q
    | none => .vnone

/-- Function `sanitize_record` (result_service.py): drop `_id`, default the
required and optional fields, and coerce the age field. -/
def sanitize_record (r : Record) : Record :=
  let out := rdel r "_id"
  let out := rsetdefault out "breed" .vnone
  let out := rsetdefault out "sex_upon_outcome" .vnone
  let out := rsetdefault out "age_upon_outcome_in_weeks" .vnone
  let out := rsetdefault out "name" (.vstr "")
  let out := rsetdefault out "location_lat" .vnone
  let out := rsetdefault out "location_long" .vnone
  rset out "age_upon_outcome_in_weeks" (coerceAge (rget out "age_upon_outcome_in_weeks"))

/-- Function `sanitize_rows` (result_service.py). -/
def sanitize_rows (rows : List Record) : List Record :=
  rows.map sanitize_record

/-- A record holding only an age field. -/
def ageOnly (v : Value) : Record :=
  fun k => if k = "age_upon_outcome_in_weeks" then some v else none

def emptyStrRec : Record := fun k =>
  if k = "breed" then some (.vstr "")
  else if k = "sex_upon_outcome" then some (.vstr "") else none

def emptyStrCriteria : MatchCriteria :=
  { preferred_breeds := some [""], preferred_sex := some "" }

def waterBreeds : List String :=
  ["Labrador Retriever Mix", "Chesapeake Bay Retriever", "Newfoundland"]

def mountainBreeds : List String :=
  ["German Shepherd", "Alaskan Malamute", "Old English Sheepdog", "Siberian Husky", "Rottweiler"]

def disasterBreeds : List String :=
  ["Doberman Pinscher", "German Shepherd", "Golden Retriever", "Bloodhound", "Rottweiler"]

/-- Pointwise description of `sanitize_record`: `_id` is removed, the age
field holds the coerced age, the other required/optional fields are
defaulted, and every other field is untouched. -/

def presetScoreRec : Record :=
  fun k => if k = "match_score" then some (.vstr "x") else none

theorem score_breed_cases (r : Record) (c : MatchCriteria) :
    score_breed r c = 0 ∨ score_breed r c = 50 := by
  rcases c with ⟨pb, olo, ohi, ps⟩
  cases pb with
  | none => exact Or.inl rfl
  | some bs =>
    simp only [score_breed]
    split
    · exact Or.inr rfl
    · exact Or.inl rfl

theorem score_age_cases (r : Record) (c : MatchCriteria) :
    score_age r c = 0 ∨ score_age r c = 30 := by
  rcases c with ⟨pb, olo, ohi, ps⟩
  cases olo with
  | none => exact Or.inl rfl
  | some lo =>
    cases ohi with
    | none => exact Or.inl rfl
    | some hi =>
      cases hA : asNum (rget r "age_upon_outcome_in_weeks") with
      | none => simp [score_age, hA]
      | some q =>
        simp only [score_age, hA]
        split
        · exact Or.inr rfl
        · exact Or.inl rfl

theorem score_sex_cases (r : Record) (c : MatchCriteria) :
    score_sex r c = 0 ∨ score_sex r c = 20 := by
  rcases c with ⟨pb, olo, ohi, ps⟩
  cases ps with
  | none => exact Or.inl rfl
  | some s =>
    simp only [score_sex]
    split
    · exact Or.inr rfl
    · exact Or.inl rfl

/-- C1: for every record and criteria, the breakdown returned by
`score_dog` satisfies `total_score = breed_match + age_match + sex_match`,
and the total is one of 0, 20, 30, 50, 70, 80, 100. -/
theorem score_dog_total_sum_and_reachable (r : Record) (c : MatchCriteria) :
    (score_dog r c).total_score
        = (score_dog r c).breed_match + (score_dog r c).age_match + (score_dog r c).sex_match
    ∧ (score_dog r c).total_score ∈ ([0, 20, 30, 50, 70, 80, 100] : List Int) := by
  refine ⟨rfl, ?_⟩
  show score_breed r c + score_age r c + score_sex r c ∈ _
  rcases score_breed_cases r c with hb | hb <;>
    rcases score_age_cases r c with ha | ha <;>
      rcases score_sex_cases r c with hs | hs <;>
        rw [hb, ha, hs] <;> decide

/-- C2: the age component of `score_dog` is 30 exactly when both bounds
are present, the age field is numeric, and min ≤ age ≤ max inclusive;
and ages exactly at the bounds score 30 while ages one week outside
score 0. -/
theorem score_age_iff_in_range :
    (∀ (r : Record) (c : MatchCriteria),
      (score_dog r c).age_match = 30 ↔
        ∃ lo hi q, c.min_weeks = some lo ∧ c.max_weeks = some hi ∧
          asNum (rget r "age_upon_outcome_in_weeks") = some q ∧
          (lo : Rat) ≤ q ∧ q ≤ (hi : Rat))
    ∧ (∀ lo hi : Int, lo ≤ hi →
        (score_dog (ageOnly (.vint lo)) ⟨none, some lo, some hi, none⟩).age_match = 30
        ∧ (score_dog (ageOnly (.vint hi)) ⟨none, some lo, some hi, none⟩).age_match = 30
        ∧ (score_dog (ageOnly (.vint (lo - 1))) ⟨none, some lo, some hi, none⟩).age_match = 0
        ∧ (score_dog (ageOnly (.vint (hi + 1))) ⟨none, some lo, some hi, none⟩).age_match = 0) := by
  constructor
  · intro r c
    show score_age r c = 30 ↔ _
    rcases c with ⟨pb, olo, ohi, ps⟩
    cases olo with
    | none => simp [score_age]
    | some lo =>
      cases ohi with
      | none => simp [score_age]
      | some hi =>
        simp only [score_age]
        cases hA : asNum (rget r "age_upon_outcome_in_weeks") with
        | none => simp [hA]
        | some q =>
          simp only [hA, Option.some.injEq]
          split
          · next h =>
            constructor
            · intro _
              exact ⟨lo, hi, q, rfl, rfl, rfl, h.1, h.2⟩
            · intro _
              rfl
          · next h =>
            constructor
            · intro h30
              exact absurd h30 (by decide)
            · rintro ⟨lo1, hi1, q1, h1, h2, h3, h4, h5⟩
              cases h1
              cases h2
              cases h3
              exact absurd ⟨h4, h5⟩ h
  · intro lo hi hle
    have heval : ∀ n : Int, score_age (ageOnly (.vint n)) ⟨none, some lo, some hi, none⟩
        = if (lo : Rat) ≤ (n : Rat) ∧ (n : Rat) ≤ (hi : Rat) then 30 else 0 := fun n => rfl
    have heval2 : ∀ n : Int, score_age (ageOnly (.vint n)) ⟨none, some lo, some hi, none⟩
        = if lo ≤ n ∧ n ≤ hi then 30 else 0 := by
      intro n
      rw [heval n]
      exact if_congr (and_congr Int.cast_le Int.cast_le) rfl rfl
    refine ⟨?_, ?_, ?_, ?_⟩
    · show score_age (ageOnly (.vint lo)) ⟨none, some lo, some hi, none⟩ = 30
      rw [heval2]
      exact if_pos ⟨le_refl lo, hle⟩
    · show score_age (ageOnly (.vint hi)) ⟨none, some lo, some hi, none⟩ = 30
      rw [heval2]
      exact if_pos ⟨hle, le_refl hi⟩
    · show score_age (ageOnly (.vint (lo - 1))) ⟨none, some lo, some hi, none⟩ = 0
      rw [heval2]
      exact if_neg (by omega)
    · show score_age (ageOnly (.vint (hi + 1))) ⟨none, some lo, some hi, none⟩ = 0
      rw [heval2]
      exact if_neg (by omega)

theorem mem_insertDesc (a x : Int × Record) (l : List (Int × Record)) :
    a ∈ insertDesc x l ↔ a = x ∨ a ∈ l := by
  induction l with
  | nil => simp [insertDesc]
  | cons y ys ih =>
    simp only [insertDesc]
    split
    · simp only [List.mem_cons, ih]
      tauto
    · simp only [List.mem_cons]

theorem pairwise_insertDesc (x : Int × Record) (l : List (Int × Record))
    (h : l.Pairwise (fun a b => b.1 ≤ a.1)) :
    (insertDesc x l).Pairwise (fun a b => b.1 ≤ a.1) := by
  induction l with
  | nil => simp [insertDesc]
  | cons y ys ih =>
    cases h with
    | cons hy hys =>
      simp only [insertDesc]
      split
      · next hlt =>
        refine List.Pairwise.cons ?_ (ih hys)
        intro b hb
        rcases (mem_insertDesc b x ys).1 hb with rfl | hb2
        · exact le_of_lt hlt
        · exact hy b hb2
      · next hge =>
        refine List.Pairwise.cons ?_ (List.Pairwise.cons hy hys)
        intro b hb
        rcases List.mem_cons.1 hb with rfl | hb2
        · exact le_of_not_lt hge
        · exact le_trans (hy b hb2) (le_of_not_lt hge)

theorem pairwise_sortDesc (l : List (Int × Record)) :
    (sortDesc l).Pairwise (fun a b => b.1 ≤ a.1) := by
  induction l with
  | nil => exact List.Pairwise.nil
  | cons x xs ih => exact pairwise_insertDesc x (sortDesc xs) ih

theorem filter_insertDesc (s : Int) (x : Int × Record) (l : List (Int × Record)) :
    (insertDesc x l).filter (fun p => p.1 == s)
      = if x.1 == s then x :: l.filter (fun p => p.1 == s)
        else l.filter (fun p => p.1 == s) := by
  induction l with
  | nil => by_cases hx : x.1 = s <;> simp [insertDesc, hx]
  | cons y ys ih =>
    simp only [insertDesc]
    split
    · next hlt =>
      by_cases hx : x.1 = s
      · have hy : ¬ y.1 = s := by omega
        simp [List.filter_cons, ih, beq_iff_eq, hx, hy]
      · simp [List.filter_cons, ih, beq_iff_eq, hx]
    · next hge =>
      simp [List.filter_cons]

theorem filter_sortDesc (s : Int) (l : List (Int × Record)) :
    (sortDesc l).filter (fun p => p.1 == s) = l.filter (fun p => p.1 == s) := by
  induction l with
  | nil => rfl
  | cons x xs ih =>
    simp only [sortDesc]
    rw [filter_insertDesc, ih, List.filter_cons]

theorem mem_sortDesc (a : Int × Record) (l : List (Int × Record)) :
    a ∈ sortDesc l ↔ a ∈ l := by
  induction l with
  | nil => simp [sortDesc]
  | cons x xs ih =>
    simp only [sortDesc, mem_insertDesc, List.mem_cons, ih]

theorem msOf_attachScore (criteria : MatchCriteria) (r : Record) :
    msOf (attachScore criteria r).2 = (attachScore criteria r).1 :=
  rfl

theorem msOf_of_mem_map (criteria : MatchCriteria) (rows : List Record)
    (p : Int × Record) (hp : p ∈ rows.map (attachScore criteria)) :
    msOf p.2 = p.1 := by
  rcases List.mem_map.1 hp with ⟨r, _, rfl⟩
  exact msOf_attachScore criteria r

/-- C3: `rank_results` orders records by `match_score` descending, and
records of equal score keep their input order: for every score `s`, the
output records scoring `s` are exactly the scored input records scoring
`s`, in input order. This holds for every criteria and every input list,
unconditionally. -/
theorem rank_results_sorted_and_stable (rows : List Record) (criteria : MatchCriteria) :
    (rank_results rows criteria).Pairwise (fun a b => msOf b ≤ msOf a)
    ∧ ∀ s : Int,
        (rank_results rows criteria).filter (fun r => msOf r == s)
          = (rows.map (fun r => (attachScore criteria r).2)).filter (fun r => msOf r == s) := by
  constructor
  · show ((sortDesc (rows.map (attachScore criteria))).map Prod.snd).Pairwise _
    rw [List.pairwise_map]
    refine (pairwise_sortDesc (rows.map (attachScore criteria))).imp_of_mem ?_
    intro a b ha hb hab
    have ha2 : msOf a.2 = a.1 :=
      msOf_of_mem_map criteria rows a ((mem_sortDesc a _).1 ha)
    have hb2 : msOf b.2 = b.1 :=
      msOf_of_mem_map criteria rows b ((mem_sortDesc b _).1 hb)
    rw [ha2, hb2]
    exact hab
  · intro s
    show ((sortDesc (rows.map (attachScore criteria))).map Prod.snd).filter _ = _
    rw [List.filter_map, List.filter_congr (q := fun p => p.1 == s) ?hq, filter_sortDesc,
      ← List.filter_congr (p := (fun r => msOf r == s) ∘ Prod.snd) ?hq2, ← List.filter_map,
      List.map_map]
    case hq =>
      intro p hp
      have := msOf_of_mem_map criteria rows p ((mem_sortDesc p _).1 hp)
      simp [Function.comp, this]
    case hq2 =>
      intro p hp
      have := msOf_of_mem_map criteria rows p hp
      simp [Function.comp, this]
    rfl

/-- C4 counterexample: at a record whose breed and sex are the empty
string and criteria admitting the empty string, the claimed
"present and member/equal" biconditionals fail: both components are 0
although the fields are present and match. -/
theorem score_breed_sex_presence_counterexample :
    ¬ (((score_dog emptyStrRec emptyStrCriteria).breed_match = 50 ↔
          ∃ bs s, emptyStrCriteria.preferred_breeds = some bs
            ∧ rget emptyStrRec "breed" = .vstr s ∧ s ∈ bs)
        ∧ ((score_dog emptyStrRec emptyStrCriteria).sex_match = 20 ↔
          ∃ ps s, emptyStrCriteria.preferred_sex = some ps
            ∧ rget emptyStrRec "sex_upon_outcome" = .vstr s ∧ s = ps)) := by
  intro h
  have h50 : (score_dog emptyStrRec emptyStrCriteria).breed_match = 50 :=
    h.1.2 ⟨[""], "", rfl, rfl, List.mem_singleton.mpr rfl⟩
  exact absurd h50 (by decide)

/-- C4 (amended): the breed component is 50 iff the criteria's breed set is
present and the record's breed is a non-empty string belonging to it; the
sex component is 20 iff the preferred sex is present and the record's sex is
a non-empty string equal to it; an absent criteria dimension forces that
component to 0. (The code treats an empty-string field as missing.) -/
theorem score_breed_sex_iff (r : Record) (c : MatchCriteria) :
    ((score_dog r c).breed_match = 50 ↔
        ∃ bs s, c.preferred_breeds = some bs ∧ rget r "breed" = .vstr s ∧ s ≠ "" ∧ s ∈ bs)
    ∧ ((score_dog r c).sex_match = 20 ↔
        ∃ ps s, c.preferred_sex = some ps ∧ rget r "sex_upon_outcome" = .vstr s ∧ s ≠ "" ∧ s = ps)
    ∧ (c.preferred_breeds = none → (score_dog r c).breed_match = 0)
    ∧ (c.preferred_sex = none → (score_dog r c).sex_match = 0) := by
  rcases c with ⟨pb, olo, ohi, ps⟩
  refine ⟨?_, ?_, ?_, ?_⟩
  · show score_breed r ⟨pb, olo, ohi, ps⟩ = 50 ↔ _
    cases pb with
    | none => simp [score_breed]
    | some bs =>
      simp only [score_breed, Option.some.injEq]
      cases hv : rget r "breed" with
      | vstr s =>
        by_cases hs : s = ""
        · subst hs
          simp [truthy, hv]
        · by_cases hmem : s ∈ bs
          · simp [truthy, valMem, hv, hs, hmem, BREED_WEIGHT]
          · simp [truthy, valMem, hv, hs, hmem]
      | vnone => simp [truthy, hv]
      | vint n => simp [truthy, valMem, hv]
      | vfloat q => simp [truthy, valMem, hv]
      | vbreakdown b a sx => simp [truthy, valMem, hv]
  · show score_sex r ⟨pb, olo, ohi, ps⟩ = 20 ↔ _
    cases ps with
    | none => simp [score_sex]
    | some p =>
      simp only [score_sex, Option.some.injEq]
      cases hv : rget r "sex_upon_outcome" with
      | vstr s =>
        by_cases hs : s = ""
        · subst hs
          simp [truthy, hv]
        · by_cases heq : s = p
          · simp [truthy, valEqStr, hv, hs, heq, SEX_WEIGHT]
          · simp [truthy, valEqStr, hv, hs, heq]
      | vnone => simp [truthy, hv]
      | vint n => simp [truthy, valEqStr, hv]
      | vfloat q => simp [truthy, valEqStr, hv]
      | vbreakdown b a sx => simp [truthy, valEqStr, hv]
  · intro hb
    cases hb
    rfl
  · intro hs
    cases hs
    rfl

/-- Witness for the absent-dimension clauses of the C4 theorem. -/
theorem score_breed_sex_iff_witness :
    (({} : MatchCriteria).preferred_breeds = none
      ∧ (score_dog emptyStrRec {}).breed_match = 0)
    ∧ (({} : MatchCriteria).preferred_sex = none
      ∧ (score_dog emptyStrRec {}).sex_match = 0) :=
  ⟨⟨rfl, (score_breed_sex_iff emptyStrRec {}).2.2.1 rfl⟩,
   ⟨rfl, (score_breed_sex_iff emptyStrRec {}).2.2.2 rfl⟩⟩

/-- C6: validation fails exactly on strings other than the four canonical
category names (case-sensitive, no trimming), and returns a valid value
unchanged; in particular "WATER" and " water" are rejected. -/
theorem validate_filter_type_spec :
    (∀ s : String,
        validate_filter_type s =
          if s = "all" ∨ s = "water" ∨ s = "mountain" ∨ s = "disaster"
          then Except.ok s else Except.error "Invalid filter type.")
    ∧ validate_filter_type "WATER" = Except.error "Invalid filter type."
    ∧ validate_filter_type " water" = Except.error "Invalid filter type." := by
  refine ⟨fun s => ?_, rfl, rfl⟩
  have hmem : s ∈ ALLOWED_FILTERS ↔ (s = "all" ∨ s = "water" ∨ s = "mountain" ∨ s = "disaster") := by
    simp [ALLOWED_FILTERS]
  show (if s ∈ ALLOWED_FILTERS then Except.ok s else Except.error "Invalid filter type.") = _
  by_cases h : s = "all" ∨ s = "water" ∨ s = "mountain" ∨ s = "disaster"
  · rw [if_pos (hmem.mpr h), if_pos h]
  · rw [if_neg (fun hc => h (hmem.mp hc)), if_neg h]

/-- C10: `criteria_for_filter` performs no validation: every string other
than the three rescue categories, including invalid values such as
"WATER" or " water", yields the empty criteria, under which every record
scores 0 on all components. -/
theorem criteria_for_filter_no_validation (s : String)
    (h1 : s ≠ "water") (h2 : s ≠ "mountain") (h3 : s ≠ "disaster") :
    criteria_for_filter s = {} ∧ ∀ r, score_dog r (criteria_for_filter s) = ⟨0, 0, 0, 0⟩ := by
  have hc : criteria_for_filter s = {} := by
    simp [criteria_for_filter, h1, h2, h3]
  refine ⟨hc, fun r => ?_⟩
  rw [hc]
  rfl

/-- Witness for C10 at the invalid category "WATER". -/
theorem criteria_for_filter_no_validation_witness :
    (("WATER" : String) ≠ "water" ∧ ("WATER" : String) ≠ "mountain" ∧ ("WATER" : String) ≠ "disaster")
    ∧ (criteria_for_filter "WATER" = {}
      ∧ ∀ r, score_dog r (criteria_for_filter "WATER") = ⟨0, 0, 0, 0⟩) :=
  ⟨⟨by decide, by decide, by decide⟩,
   criteria_for_filter_no_validation "WATER" (by decide) (by decide) (by decide)⟩

/-- C5: for each category, `build_rescue_query` yields the conjunction of
breed-in-set, sex-equality and inclusive age-range conditions whose breed
set, sex and bounds are exactly those of `criteria_for_filter` for the same
category, and its store semantics equals the spec predicate of those
criteria; for "all" the query is empty, matches every record, and the
criteria has all four fields absent. -/
theorem build_rescue_query_refines_criteria :
    (build_rescue_query "water"
        = Except.ok [.breedIn waterBreeds, .sexEq "Intact Female", .ageRange 26 156]
      ∧ criteria_for_filter "water"
        = ⟨some waterBreeds, some 26, some 156, some "Intact Female"⟩
      ∧ ∀ r, queryMatches [.breedIn waterBreeds, .sexEq "Intact Female", .ageRange 26 156] r
          = specPredicate (criteria_for_filter "water") r)
    ∧ (build_rescue_query "mountain"
        = Except.ok [.breedIn mountainBreeds, .sexEq "Intact Male", .ageRange 26 156]
      ∧ criteria_for_filter "mountain"
        = ⟨some mountainBreeds, some 26, some 156, some "Intact Male"⟩
      ∧ ∀ r, queryMatches [.breedIn mountainBreeds, .sexEq "Intact Male", .ageRange 26 156] r
          = specPredicate (criteria_for_filter "mountain") r)
    ∧ (build_rescue_query "disaster"
        = Except.ok [.breedIn disasterBreeds, .sexEq "Intact Male", .ageRange 20 300]
      ∧ criteria_for_filter "disaster"
        = ⟨some disasterBreeds, some 20, some 300, some "Intact Male"⟩
      ∧ ∀ r, queryMatches [.breedIn disasterBreeds, .sexEq "Intact Male", .ageRange 20 300] r
          = specPredicate (criteria_for_filter "disaster") r)
    ∧ (build_rescue_query "all" = Except.ok []
      ∧ criteria_for_filter "all" = ⟨none, none, none, none⟩
      ∧ (∀ r, queryMatches [] r = true)
      ∧ ∀ r, queryMatches [] r = specPredicate (criteria_for_filter "all") r) := by
  refine ⟨⟨rfl, rfl, fun r => ?_⟩, ⟨rfl, rfl, fun r => ?_⟩, ⟨rfl, rfl, fun r => ?_⟩,
    rfl, rfl, fun r => rfl, fun r => rfl⟩ <;>
  · simp [queryMatches, specPredicate, condMatches, criteria_for_filter, Bool.and_assoc,
      waterBreeds, mountainBreeds, disasterBreeds]

theorem rset_apply_self (r : Record) (k : String) (v : Value) :
    rset r k v k = some v := by
  simp [rset]

theorem rset_apply_ne (r : Record) (k k1 : String) (v : Value) (h : k1 ≠ k) :
    rset r k v k1 = r k1 := by
  simp [rset, h]

theorem rdel_apply_ne (r : Record) (k k1 : String) (h : k1 ≠ k) :
    rdel r k k1 = r k1 := by
  simp [rdel, h]

theorem rsetdefault_apply_self (r : Record) (k : String) (v : Value) :
    rsetdefault r k v k = some ((r k).getD v) := by
  unfold rsetdefault
  cases h : r k with
  | none => simp [rset, h]
  | some a => simp [h]

theorem rsetdefault_apply_ne (r : Record) (k k1 : String) (v : Value) (h : k1 ≠ k) :
    rsetdefault r k v k1 = r k1 := by
  unfold rsetdefault
  cases r k with
  | none => simp [rset, h]
  | some a => rfl

theorem sanitize_record_apply (r : Record) (k : String) :
    sanitize_record r k =
      if k = "age_upon_outcome_in_weeks" then some (coerceAge ((r k).getD .vnone))
      else if k = "_id" then none
      else if k = "breed" ∨ k = "sex_upon_outcome" ∨ k = "location_lat" ∨ k = "location_long"
        then some ((r k).getD .vnone)
      else if k = "name" then some ((r k).getD (.vstr ""))
      else r k := by
  have hage : rget (rdel r "_id") "age_upon_outcome_in_weeks" = (r "age_upon_outcome_in_weeks").getD .vnone := by
    rw [rget, rdel_apply_ne _ _ _ (by decide)]
  simp only [sanitize_record]
  by_cases h1 : k = "age_upon_outcome_in_weeks"
  · subst h1
    rw [rset_apply_self, if_pos rfl]
    rw [rget, rsetdefault_apply_ne _ _ _ _ (by decide), rsetdefault_apply_ne _ _ _ _ (by decide),
      rsetdefault_apply_ne _ _ _ _ (by decide), rsetdefault_apply_self,
      rsetdefault_apply_ne _ _ _ _ (by decide), rsetdefault_apply_ne _ _ _ _ (by decide),
      rdel_apply_ne _ _ _ (by decide)]
    simp
  · rw [rset_apply_ne _ _ _ _ h1, if_neg h1]
    by_cases h2 : k = "_id"
    · subst h2
      rw [rsetdefault_apply_ne _ _ _ _ (by decide), rsetdefault_apply_ne _ _ _ _ (by decide),
        rsetdefault_apply_ne _ _ _ _ (by decide), rsetdefault_apply_ne _ _ _ _ (by decide),
        rsetdefault_apply_ne _ _ _ _ (by decide), rsetdefault_apply_ne _ _ _ _ (by decide)]
      simp [rdel]
    · rw [if_neg h2]
      by_cases h3 : k = "breed"
      · subst h3
        rw [rsetdefault_apply_ne _ _ _ _ (by decide), rsetdefault_apply_ne _ _ _ _ (by decide),
          rsetdefault_apply_ne _ _ _ _ (by decide), rsetdefault_apply_ne _ _ _ _ (by decide),
          rsetdefault_apply_ne _ _ _ _ (by decide), rsetdefault_apply_self,
          rdel_apply_ne _ _ _ (by decide)]
        simp
      · by_cases h4 : k = "sex_upon_outcome"
        · subst h4
          rw [rsetdefault_apply_ne _ _ _ _ (by decide), rsetdefault_apply_ne _ _ _ _ (by decide),
            rsetdefault_apply_ne _ _ _ _ (by decide), rsetdefault_apply_ne _ _ _ _ (by decide),
            rsetdefault_apply_self, rsetdefault_apply_ne _ _ _ _ (by decide),
            rdel_apply_ne _ _ _ (by decide)]
          simp
        · by_cases h5 : k = "location_lat"
          · subst h5
            rw [rsetdefault_apply_ne _ _ _ _ (by decide), rsetdefault_apply_self,
              rsetdefault_apply_ne _ _ _ _ (by decide), rsetdefault_apply_ne _ _ _ _ (by decide),
              rsetdefault_apply_ne _ _ _ _ (by decide), rsetdefault_apply_ne _ _ _ _ (by decide),
              rdel_apply_ne _ _ _ (by decide)]
            simp
          · by_cases h6 : k = "location_long"
            · subst h6
              rw [rsetdefault_apply_self, rsetdefault_apply_ne _ _ _ _ (by decide),
                rsetdefault_apply_ne _ _ _ _ (by decide), rsetdefault_apply_ne _ _ _ _ (by decide),
                rsetdefault_apply_ne _ _ _ _ (by decide), rsetdefault_apply_ne _ _ _ _ (by decide),
                rdel_apply_ne _ _ _ (by decide)]
              simp
            · rw [if_neg (by tauto)]
              by_cases h7 : k = "name"
              · subst h7
                rw [rsetdefault_apply_ne _ _ _ _ (by decide), rsetdefault_apply_ne _ _ _ _ (by decide),
                  rsetdefault_apply_self, rsetdefault_apply_ne _ _ _ _ (by decide),
                  rsetdefault_apply_ne _ _ _ _ (by decide), rsetdefault_apply_ne _ _ _ _ (by decide),
                  rdel_apply_ne _ _ _ (by decide)]
                simp
              · rw [if_neg h7, rsetdefault_apply_ne _ _ _ _ h6, rsetdefault_apply_ne _ _ _ _ h5,
                  rsetdefault_apply_ne _ _ _ _ h7, rsetdefault_apply_ne _ _ _ _ h1,
                  rsetdefault_apply_ne _ _ _ _ h4, rsetdefault_apply_ne _ _ _ _ h3,
                  rdel_apply_ne _ _ _ h2]

theorem coerceAge_some (v : Value) (q : Rat) (h : pyFloat v = some q) :
    coerceAge v = .vfloat q := by
  cases v <;> simp_all [coerceAge, pyFloat]

theorem coerceAge_none (v : Value) (h : pyFloat v = none) :
    coerceAge v = .vnone := by
  cases v <;> simp_all [coerceAge, pyFloat]

theorem coerceAge_cases (v : Value) :
    coerceAge v = .vnone ∨ ∃ q, coerceAge v = .vfloat q := by
  cases h : pyFloat v with
  | none => exact Or.inl (coerceAge_none v h)
  | some q => exact Or.inr ⟨q, coerceAge_some v q h⟩

theorem coerceAge_idem (v : Value) :
    coerceAge (coerceAge v) = coerceAge v := by
  rcases coerceAge_cases v with h | ⟨q, h⟩ <;> rw [h] <;> rfl

theorem rget_sanitize_age (r : Record) :
    rget (sanitize_record r) "age_upon_outcome_in_weeks"
      = coerceAge (rget r "age_upon_outcome_in_weeks") := by
  rw [rget, sanitize_record_apply, if_pos rfl]
  rfl

/-- C7: `sanitize_record` coerces the age field so that null stays null,
any value the float conversion accepts becomes that number, and any other
value becomes null; the sanitized age is always null or a number, "12"
becomes 12.0, and "bad" becomes null. -/
theorem sanitize_record_age_spec :
    (∀ r : Record,
      (rget (sanitize_record r) "age_upon_outcome_in_weeks" = .vnone
        ∨ ∃ q, rget (sanitize_record r) "age_upon_outcome_in_weeks" = .vfloat q)
      ∧ (rget r "age_upon_outcome_in_weeks" = .vnone →
          rget (sanitize_record r) "age_upon_outcome_in_weeks" = .vnone)
      ∧ (∀ q, pyFloat (rget r "age_upon_outcome_in_weeks") = some q →
          rget (sanitize_record r) "age_upon_outcome_in_weeks" = .vfloat q)
      ∧ (pyFloat (rget r "age_upon_outcome_in_weeks") = none →
          rget (sanitize_record r) "age_upon_outcome_in_weeks" = .vnone))
    ∧ rget (sanitize_record (ageOnly (.vstr "12"))) "age_upon_outcome_in_weeks" = .vfloat 12
    ∧ rget (sanitize_record (ageOnly (.vstr "bad"))) "age_upon_outcome_in_weeks" = .vnone := by
  refine ⟨fun r => ?_, by decide, by decide⟩
  rw [rget_sanitize_age]
  exact ⟨coerceAge_cases _, fun h0 => by rw [h0]; rfl, fun q hq => coerceAge_some _ q hq,
    fun hn => coerceAge_none _ hn⟩

/-- Witness for the convertible-value clause of the C7 theorem at "12". -/
theorem sanitize_record_age_spec_witness :
    pyFloat (rget (ageOnly (.vstr "12")) "age_upon_outcome_in_weeks") = some 12
    ∧ rget (sanitize_record (ageOnly (.vstr "12"))) "age_upon_outcome_in_weeks" = .vfloat 12 :=
  ⟨by decide, (sanitize_record_age_spec.1 (ageOnly (.vstr "12"))).2.2.1 12 (by decide)⟩

/-- C8: `sanitize_record` is idempotent: sanitizing an already sanitized
record leaves every field unchanged. -/
theorem sanitize_record_idempotent (r : Record) :
    sanitize_record (sanitize_record r) = sanitize_record r := by
  funext k
  by_cases h1 : k = "age_upon_outcome_in_weeks"
  · subst h1
    simp [sanitize_record_apply, coerceAge_idem]
  · by_cases h2 : k = "_id"
    · subst h2
      simp [sanitize_record_apply]
    · by_cases h3 : k = "breed" ∨ k = "sex_upon_outcome" ∨ k = "location_lat" ∨ k = "location_long"
      · rcases h3 with rfl | rfl | rfl | rfl <;> simp [sanitize_record_apply]
      · by_cases h4 : k = "name"
        · subst h4
          simp [sanitize_record_apply]
        · simp [sanitize_record_apply, h1, h2, h3, h4]

/-- C9 counterexample: `rank_results` overwrites a pre-existing
`match_score` field, so an original field does not always survive with its
original value: on a record whose match_score is the string "x", the sole
output record's match_score is the integer 0. -/
theorem rank_results_overwrites_counterexample :
    presetScoreRec "match_score" = some (.vstr "x")
    ∧ (rank_results [presetScoreRec] {}).map (fun r => r "match_score") = [some (.vint 0)]
    ∧ ¬ ∀ (rows : List Record) (criteria : MatchCriteria) r2, r2 ∈ rank_results rows criteria →
          ∃ r, r ∈ rows ∧ ∀ k v, r k = some v → r2 k = some v := by
  refine ⟨rfl, by decide, fun h => ?_⟩
  have hmem : (attachScore {} presetScoreRec).2 ∈ rank_results [presetScoreRec] {} :=
    List.mem_singleton.mpr rfl
  rcases h [presetScoreRec] {} _ hmem with ⟨r, hr, hpres⟩
  rcases List.mem_singleton.1 hr with rfl
  have hx := hpres "match_score" (.vstr "x") rfl
  exact absurd hx (by decide)

/-- C9 (amended): every output record of `rank_results` agrees with some
input record on every field other than `match_score` and
`score_breakdown`, and those two fields hold that record's total score
and component breakdown; the input records themselves are unchanged. -/
theorem rank_results_preserves_fields (rows : List Record) (criteria : MatchCriteria)
    (r2 : Record) (h : r2 ∈ rank_results rows criteria) :
    ∃ r, r ∈ rows
      ∧ (∀ k, k ≠ "match_score" → k ≠ "score_breakdown" → r2 k = r k)
      ∧ r2 "match_score" = some (.vint (score_dog r criteria).total_score)
      ∧ r2 "score_breakdown" = some (.vbreakdown (score_dog r criteria).breed_match
          (score_dog r criteria).age_match (score_dog r criteria).sex_match) := by
  unfold rank_results at h
  rcases List.mem_map.1 h with ⟨p, hpmem, rfl⟩
  rcases List.mem_map.1 ((mem_sortDesc p _).1 hpmem) with ⟨r, hr, rfl⟩
  refine ⟨r, hr, fun k hk1 hk2 => ?_, rfl, rfl⟩
  show rset (rset r "match_score" _) "score_breakdown" _ k = r k
  rw [rset_apply_ne _ _ _ _ hk2, rset_apply_ne _ _ _ _ hk1]

/-- Witness for the C9 theorem on a one-record input. -/
theorem rank_results_preserves_fields_witness :
    (attachScore {} presetScoreRec).2 ∈ rank_results [presetScoreRec] {}
    ∧ ∃ r, r ∈ [presetScoreRec]
      ∧ (∀ k, k ≠ "match_score" → k ≠ "score_breakdown" → (attachScore {} presetScoreRec).2 k = r k)
      ∧ (attachScore {} presetScoreRec).2 "match_score" = some (.vint (score_dog r {}).total_score)
      ∧ (attachScore {} presetScoreRec).2 "score_breakdown" = some (.vbreakdown
          (score_dog r {}).breed_match (score_dog r {}).age_match (score_dog r {}).sex_match) :=
  ⟨List.mem_singleton.mpr rfl,
   rank_results_preserves_fields [presetScoreRec] {} _ (List.mem_singleton.mpr rfl)⟩

/-- Witness for the boundary clause of the C2 theorem at the water age
range 26 to 156. -/
theorem score_age_iff_in_range_witness :
    (26 : Int) ≤ 156
    ∧ ((score_dog (ageOnly (.vint 26)) ⟨none, some 26, some 156, none⟩).age_match = 30
      ∧ (score_dog (ageOnly (.vint 156)) ⟨none, some 26, some 156, none⟩).age_match = 30
      ∧ (score_dog (ageOnly (.vint (26 - 1))) ⟨none, some 26, some 156, none⟩).age_match = 0
      ∧ (score_dog (ageOnly (.vint (156 + 1))) ⟨none, some 26, some 156, none⟩).age_match = 0) :=
  ⟨by decide, score_age_iff_in_range.2 26 156 (by decide)⟩
